import Mathlib

/-!
Verification development for the asciinema2video conversion pipeline
(src/program.ts). The TypeScript source is shallowly embedded: pure
functions become Lean functions, the external collaborators (filesystem,
path resolution, browser page, screen recorder, process signals) are
parameters or reified event traces, and JavaScript numbers are modelled
with Option Int (parseInt, where none is the NaN sentinel) and a JsNum
type (parseFloat values, with nan / signed infinity / exact rational).
-/

/-- Character-level digit test used by the numeric parsers ('0'-'9'). -/
def charIsDigit (c : Char) : Bool := c.isDigit

/-- JavaScript StrWhiteSpace characters skipped by Number.parseInt and
Number.parseFloat before parsing (ASCII subset; the full JS set also has
some Unicode spaces, which never occur in these CLI strings). -/
def isJsWhitespace (c : Char) : Bool :=
  c == ' ' || c == '\t' || c == '\n' || c == '\r' || c == '\x0b' || c == '\x0c'

/-- Value of a run of decimal digit characters, most significant first. -/
def digitsToNat (ds : List Char) : Nat :=
  ds.foldl (fun a c => a * 10 + (c.toNat - 48)) 0

/-- Optional leading sign for Number.parseInt: a leading minus gives sign -1,
a leading plus gives sign 1, anything else leaves the list unchanged. -/
def splitSign (cs : List Char) : Int × List Char :=
  match cs with
  | [] => (1, [])
  | c :: r => if c = '-' then (-1, r) else if c = '+' then (1, r) else (1, c :: r)

/-- Model of JavaScript Number.parseInt(s, 10) as used by parseOptions:
trim leading whitespace, read an optional sign, then take the longest run
of decimal digits; none models the NaN result when no digit is found. -/
def jsParseInt (s : String) : Option Int :=
  let cs := s.data.dropWhile isJsWhitespace
  let sg := splitSign cs
  let ds := sg.2.takeWhile charIsDigit
  if ds = [] then none else some (sg.1 * ((digitsToNat ds : Nat) : Int))

/-- JavaScript number as produced by Number.parseFloat: NaN, a signed
infinity, or a finite value represented exactly as a rational. -/
inductive JsNum where
  | nan
  | inf (neg : Bool)
  | val (q : ℚ)
deriving DecidableEq

/-- Optional leading sign for Number.parseFloat; the Bool is true for a
negative sign. -/
def splitSignF (cs : List Char) : Bool × List Char :=
  match cs with
  | [] => (false, [])
  | c :: r => if c = '-' then (true, r) else if c = '+' then (false, r) else (false, c :: r)

/-- Fractional part of the parseFloat grammar: a leading dot is followed by
the longest run of digits; without a dot nothing is consumed. -/
def splitFrac (r1 : List Char) : List Char × List Char :=
  match r1 with
  | [] => ([], [])
  | c :: r =>
      if c = '.' then (r.takeWhile charIsDigit, r.dropWhile charIsDigit) else ([], c :: r)

/-- Exponent part of the parseFloat grammar: an e or E with an optional sign
and at least one digit; otherwise the exponent is 0 (nothing consumed). -/
def parseExp (cs : List Char) : Int :=
  match cs with
  | [] => 0
  | c :: r =>
      if c = 'e' ∨ c = 'E' then
        let sg := splitSignF r
        let ds := sg.2.takeWhile charIsDigit
        if ds = [] then 0 else (if sg.1 then -1 else 1) * ((digitsToNat ds : Nat) : Int)
      else 0

/-- Core of Number.parseFloat after whitespace and sign handling: an
Infinity literal, or integer digits, optional fraction and optional
exponent; NaN when neither integer nor fraction digits are present. -/
def jsParseFloatCore (cs1 : List Char) (neg : Bool) : JsNum :=
  if "Infinity".data.isPrefixOf cs1 then JsNum.inf neg
  else
    let ip := cs1.takeWhile charIsDigit
    let r1 := cs1.dropWhile charIsDigit
    let fr := splitFrac r1
    if ip = [] ∧ fr.1 = [] then JsNum.nan
    else
      JsNum.val ((if neg then (-1 : ℚ) else 1) *
        ((digitsToNat ip : ℚ) + (digitsToNat fr.1 : ℚ) / (10 : ℚ) ^ fr.1.length) *
        (10 : ℚ) ^ parseExp fr.2)

/-- Model of JavaScript Number.parseFloat as used by parseOptions: trim
leading whitespace, read an optional sign, then the longest prefix matching
the decimal-literal grammar; NaN when no prefix matches. -/
def jsParseFloat (s : String) : JsNum :=
  let cs := s.data.dropWhile isJsWhitespace
  let sg := splitSignF cs
  jsParseFloatCore sg.2 sg.1

/-- The theme enumeration from src/program.ts (THEMES). -/
inductive Theme where
  | asciinema
  | dracula
  | gruvboxDark
  | monokai
  | solarizedDark
  | solarizedLight
  | tango
  | nord
deriving DecidableEq

/-- The THEMES constant of src/program.ts. -/
def THEMES : List Theme :=
  [Theme.asciinema, Theme.dracula, Theme.gruvboxDark, Theme.monokai,
   Theme.solarizedDark, Theme.solarizedLight, Theme.tango, Theme.nord]

/-- String literal of each theme, as written in the THEMES array. -/
def themeToString : Theme → String
  | Theme.asciinema => "asciinema"
  | Theme.dracula => "dracula"
  | Theme.gruvboxDark => "gruvbox-dark"
  | Theme.monokai => "monokai"
  | Theme.solarizedDark => "solarized-dark"
  | Theme.solarizedLight => "solarized-light"
  | Theme.tango => "tango"
  | Theme.nord => "nord"

/-- Raw CLI options as strings (interface ConvertOptions). -/
structure ConvertOptions where
  output : String
  width : String
  height : String
  theme : Theme
  speed : String
  scale : String

/-- Parsed CLI options with proper types (interface ParsedOptions); width
and height carry the parseInt result (none = NaN sentinel), speed and scale
the parseFloat result. -/
structure ParsedOptions where
  output : String
  width : Option Int
  height : Option Int
  theme : Theme
  speed : JsNum
  scale : JsNum

/-- parseOptions from src/program.ts: converts string CLI options to
numeric types, field by field, with no rejection of parse failures. -/
def parseOptions (options : ConvertOptions) : ParsedOptions :=
  { output := options.output
    width := jsParseInt options.width
    height := jsParseInt options.height
    theme := options.theme
    speed := jsParseFloat options.speed
    scale := jsParseFloat options.scale }

/-- validateInputFile from src/program.ts, with the filesystem collaborators
as parameters: resolve models path.resolve (the platform-resolved absolute
form of a path) and fsExists models fs.existsSync. Throwing is modelled
with Except. -/
def validateInputFile (resolve : String → String) (fsExists : String → Bool)
    (inputPath : String) : Except String String :=
  let inputAbsPath := resolve inputPath
  if fsExists inputAbsPath then Except.ok inputAbsPath
  else Except.error ("Input file not found: " ++ inputAbsPath)

/-- The standard base64 alphabet, as used by Buffer.toString for base64. -/
def b64Alphabet : List Char :=
  "ABCDEFGHIJKLMNOPQRSTUVWXYZabcdefghijklmnopqrstuvwxyz0123456789+/".data

/-- Alphabet character of a six-bit value. -/
def sextetChar (n : Nat) : Char := b64Alphabet.getD n '?'

/-- Index search helper for sextetVal. -/
def sextetValAux (c : Char) : List Char → Nat → Option Nat
  | [], _ => none
  | a :: rest, i => if a = c then some i else sextetValAux c rest (i + 1)

/-- Six-bit value of a base64 alphabet character. -/
def sextetVal (c : Char) : Option Nat := sextetValAux c b64Alphabet 0

/-- Base64 encoding of a byte list, as produced by Buffer.toString for
base64: each three-byte group becomes four alphabet characters; a final
one- or two-byte group is padded with two or one padding characters. -/
def base64EncodeBytes : List Nat → List Char
  | b1 :: b2 :: b3 :: rest =>
      sextetChar (b1 / 4) :: sextetChar (b1 % 4 * 16 + b2 / 16) ::
        sextetChar (b2 % 16 * 4 + b3 / 64) :: sextetChar (b3 % 64) ::
        base64EncodeBytes rest
  | [] => []
  | [b1] => [sextetChar (b1 / 4), sextetChar (b1 % 4 * 16), '=', '=']
  | [b1, b2] =>
      [sextetChar (b1 / 4), sextetChar (b1 % 4 * 16 + b2 / 16), sextetChar (b2 % 16 * 4), '=']

/-- Decoding of a final group holding one byte (two padding characters). -/
def decodeDuo (c1 c2 : Char) : Option (List Nat) :=
  match sextetVal c1, sextetVal c2 with
  | some v1, some v2 => some [v1 * 4 + v2 / 16]
  | _, _ => none

/-- Decoding of a final group holding two bytes (one padding character). -/
def decodeTrio (c1 c2 c3 : Char) : Option (List Nat) :=
  match sextetVal c1, sextetVal c2, sextetVal c3 with
  | some v1, some v2, some v3 => some [v1 * 4 + v2 / 16, v2 % 16 * 16 + v3 / 4]
  | _, _, _ => none

/-- Decoding of a full four-character group into three bytes. -/
def decodeQuad (c1 c2 c3 c4 : Char) : Option (List Nat) :=
  match sextetVal c1, sextetVal c2, sextetVal c3, sextetVal c4 with
  | some v1, some v2, some v3, some v4 =>
      some [v1 * 4 + v2 / 16, v2 % 16 * 16 + v3 / 4, v3 % 4 * 64 + v4]
  | _, _, _, _ => none

/-- Decoding of the final, padded group of a base64 string. -/
def base64DecodeTail (c1 c2 c3 c4 : Char) : Option (List Nat) :=
  if c3 = '=' then (if c4 = '=' then decodeDuo c1 c2 else none)
  else (if c4 = '=' then decodeTrio c1 c2 c3 else none)

/-- Standard base64 decoding of a well-formed base64 string (the inverse
direction of Buffer.from on base64 text): four characters per group, with
padding allowed only in the final group. -/
def base64DecodeChars : List Char → Option (List Nat)
  | [] => some []
  | c1 :: c2 :: c3 :: c4 :: rest =>
      if rest = [] ∧ (c4 = '=' ∨ c3 = '=') then base64DecodeTail c1 c2 c3 c4
      else
        match decodeQuad c1 c2 c3 c4, base64DecodeChars rest with
        | some g, some t => some (g ++ t)
        | _, _ => none
  | _ => none

/-- The fixed data-URI prefix written by createCastDataUri. -/
def castDataUriPrefix : String := "data:application/json;base64,"

/-- createCastDataUri from src/program.ts; the cast content string is
represented by its UTF-8 byte sequence (the bytes of Buffer.from). -/
def createCastDataUri (castBytes : List Nat) : String :=
  castDataUriPrefix ++ String.mk (base64EncodeBytes castBytes)

/-- interface PlayerAssets: verbatim text of the player script and style. -/
structure PlayerAssets where
  jsContent : String
  cssContent : String

/-- Milliseconds between the player ended event and the page-global ended
flag being set: the setTimeout delay in the bootstrap script template of
generateHtml. -/
def endedDelayMs : Nat := 1000

/-- Fractional decimal digits of a rational in the interval zero to one,
bounded by the given fuel. -/
def ratFracDigits : Nat → ℚ → List Char
  | 0, _ => []
  | fuel + 1, x =>
      if x = 0 then []
      else
        let y := x * 10
        let d : Nat := y.num.toNat / y.den
        Char.ofNat (48 + d) :: ratFracDigits fuel (y - (d : ℚ))

/-- Modelled from the spec: the JavaScript number-to-string conversion
applied when a number is interpolated into the HTML template (the speed
value). It is exact for NaN, the infinities, integers and finite decimal
fractions, which covers the values interpolated by this pipeline. -/
def jsNumToString : JsNum → String
  | JsNum.nan => "NaN"
  | JsNum.inf b => if b then "-Infinity" else "Infinity"
  | JsNum.val q =>
      let a : ℚ := if q < 0 then -q else q
      let ipart : Nat := a.num.toNat / a.den
      let frac := ratFracDigits 20 (a - (ipart : ℚ))
      (if q < 0 then "-" else "") ++ Nat.repr ipart ++
        (if frac = [] then "" else "." ++ String.mk frac)

/-- Literal template text of generateHtml before the style sheet. -/
def htmlSeg1 : String := "<!DOCTYPE html>\n<html>\n<head>\n  <style>\n    "

/-- Template text between the style sheet and the player script. -/
def htmlSeg2 : String := "\n    body \x7b\n      margin: 0;\n      padding: 0;\n      display: flex;\n      justify-content: center;\n      align-items: center;\n      height: 100vh;\n      background: #000;\n    \x7d\n    #player-container \x7b\n      width: 100%;\n      height: 100%;\n    \x7d\n  </style>\n</head>\n<body>\n  <div id=\"player-container\"></div>\n  <script>\n    "

/-- Template text between the player script and the cast data URI. -/
def htmlSeg3 : String := "\n  </script>\n  <script>\n    try \x7b\n      const container = document.getElementById(\x27player-container\x27);\n      window.player = AsciinemaPlayer.create(\x27"

/-- Template text between the cast data URI and the theme literal. -/
def htmlSeg4 : String := "\x27, container, \x7b\n        theme: \x27"

/-- Template text between the theme literal and the speed literal. -/
def htmlSeg5 : String := "\x27,\n        speed: "

/-- Template text after the speed literal, up to the ended-flag delay. -/
def htmlSeg6a : String := ",\n        fontSize: \x27medium\x27,\n        autoPlay: false,\n        preload: true,\n        fit: \x27both\x27,\n      \x7d);\n\n      window.playerEl = window.player.el;\n      window.playerReady = true;\n      window.playerEnded = false;\n\n      window.player.addEventListener(\x27ended\x27, () => \x7b\n         setTimeout(() => \x7b\n            window.playerEnded = true;\n         \x7d, "

/-- Template text after the ended-flag delay, to the end of the page. -/
def htmlSeg6b : String := ");\n      \x7d);\n    \x7d catch (error) \x7b\n      window.playerError = error.toString();\n    \x7d\n  </script>\n</body>\n</html>"

/-- Template text after the speed literal: the remaining player options,
the bootstrap flags, the ended listener with its delayed flag, the error
capture and the closing tags. -/
def htmlSeg6 : String := htmlSeg6a ++ Nat.repr endedDelayMs ++ htmlSeg6b

/-- generateHtml from src/program.ts: the template literal with the style
sheet, player script, cast data URI, theme literal and speed literal
interpolated in that order. -/
def generateHtml (playerAssets : PlayerAssets) (castDataUri : String)
    (options : ParsedOptions) : String :=
  htmlSeg1 ++ playerAssets.cssContent ++ htmlSeg2 ++ playerAssets.jsContent ++ htmlSeg3 ++
    castDataUri ++ htmlSeg4 ++ themeToString options.theme ++ htmlSeg5 ++
    jsNumToString options.speed ++ htmlSeg6

/-- Number of occurrences of pat as a contiguous substring of hay: one is
counted at every suffix of hay that starts with pat. -/
def countOccur (pat : List Char) : List Char → Nat
  | [] => if pat.isPrefixOf [] then 1 else 0
  | c :: rest => (if pat.isPrefixOf (c :: rest) then 1 else 0) + countOccur pat rest

/-- Observable page interactions of setupPlayer. -/
inductive SetupEv where
  | setContent (html : String)
  | onConsole
  | waitForReady (timeoutMs : Nat)
  | readErrorFlag
deriving DecidableEq

/-- The bounded wait of setupPlayer: the page.waitForFunction timeout. -/
def setupPlayerTimeoutMs : Nat := 15000

/-- JavaScript truthiness of the playerError page global: undefined and the
empty string are falsy, every non-empty string is truthy. -/
def jsTruthy : Option String → Bool
  | none => false
  | some s => !(s == "")

/-- Suffix appended to the failure message of setupPlayer: the conditional
playerError interpolation of the template literal. -/
def playerErrorSuffix (pageError : Option String) : String :=
  if jsTruthy pageError then ": " ++ pageError.getD "" else ""

/-- setupPlayer from src/program.ts: load the page content, forward console
output, and wait (15-second timeout) for the readiness flag. The outcome of
the bounded wait and the page-global playerError value are parameters (the
browser is the external collaborator); the result is the list of page
interactions together with the success or the thrown error. -/
def setupPlayer (html : String) (waitOk : Bool) (pageError : Option String) :
    List SetupEv × Except String Unit :=
  ([SetupEv.setContent html, SetupEv.onConsole, SetupEv.waitForReady setupPlayerTimeoutMs] ++
      (if waitOk then [] else [SetupEv.readErrorFlag]),
   if waitOk then Except.ok ()
   else Except.error ("Player failed to initialize" ++ playerErrorSuffix pageError))

/-- Recorder configuration passed to the screen recorder by recordVideo. -/
structure RecorderConfig where
  followNewTab : Bool
  fps : Nat
  frameWidth : Option Int
  frameHeight : Option Int
deriving DecidableEq

/-- Observable steps of recordVideo. -/
inductive RecordEv where
  | resolveFfmpeg
  | configure (cfg : RecorderConfig)
  | startCapture (outputPath : String)
  | evalPlay
  | waitForEnded (timeoutMs : Nat)
  | stopCapture
deriving DecidableEq

/-- The timeout value 0 passed by recordVideo to the ended wait; in the
browser automation API a timeout of 0 disables the timeout, so the wait is
unbounded. -/
def unboundedTimeoutMs : Nat := 0

/-- recordVideo from src/program.ts as its sequence of steps: resolve the
encoder binary, configure the recorder (no tab following, 60 frames per
second, frame equal to the parsed width and height), start capture at the
output path, trigger playback in the page, wait without bound for the
ended flag, and only then stop capture. -/
def recordVideo (outputPath : String) (options : ParsedOptions) : List RecordEv :=
  [RecordEv.resolveFfmpeg,
   RecordEv.configure ⟨false, 60, options.width, options.height⟩,
   RecordEv.startCapture outputPath,
   RecordEv.evalPlay,
   RecordEv.waitForEnded unboundedTimeoutMs,
   RecordEv.stopCapture]

/-- Browser-lifecycle events of convertCastToVideo. -/
inductive ConvEv where
  | launchBrowser
  | registerHandlers
  | setupStep (ok : Bool)
  | recordStep (ok : Bool)
  | deregisterHandlers
  | closeBrowser
  | exitProcess (code : Nat)
deriving DecidableEq

/-- Browser-lifecycle trace of convertCastToVideo from src/program.ts,
covering every exit path after the browser is launched. The signal handlers
are registered; on an interrupt the cleanup handler closes the browser and
exits the process with status 1 (the handler is modelled as running
atomically at an event-loop turn, after which the try and finally blocks
never resume); otherwise the try block runs setupPlayer and, when that
succeeds, recordVideo, and the finally block deregisters the handlers and
closes the browser whether the steps succeeded or threw. -/
def convertCastToVideoEvents (setupOk recordOk interrupted : Bool) : List ConvEv :=
  [ConvEv.launchBrowser, ConvEv.registerHandlers] ++
    (if interrupted then [ConvEv.closeBrowser, ConvEv.exitProcess 1]
     else if setupOk then
       [ConvEv.setupStep true, ConvEv.recordStep recordOk, ConvEv.deregisterHandlers,
        ConvEv.closeBrowser]
     else [ConvEv.setupStep false, ConvEv.deregisterHandlers, ConvEv.closeBrowser])

/-- Modelled from the bootstrap script embedded by generateHtml: the time
at which the page-global ended flag becomes true, given the time at which
the player fires its own ended event (the listener schedules the flag with
setTimeout after endedDelayMs). -/
def bootstrapEndedFlagTime (endedEventMs : Nat) : Nat := endedEventMs + endedDelayMs

lemma mem_of_mem_dropWhile {p : Char → Bool} {l : List Char} {c : Char}
    (h : c ∈ l.dropWhile p) : c ∈ l := by
  induction l with
  | nil => exact h
  | cons a t ih =>
      rw [List.dropWhile_cons] at h
      by_cases hp : p a = true
      · simp only [hp, if_true] at h
        exact List.mem_cons_of_mem _ (ih h)
      · simp only [hp, if_false] at h
        exact h

lemma takeWhile_eq_nil_of_none {p : Char → Bool} {l : List Char}
    (h : ∀ c ∈ l, p c = false) : l.takeWhile p = [] := by
  cases l with
  | nil => rfl
  | cons a t => simp [List.takeWhile_cons, h a (List.mem_cons_self a t)]

lemma dropWhile_eq_self_of_head {p : Char → Bool} {l : List Char}
    (h : ∀ c, l.head? = some c → p c = false) : l.dropWhile p = l := by
  cases l with
  | nil => rfl
  | cons a t => simp [List.dropWhile_cons, h a rfl]

lemma takeWhile_append_run {p : Char → Bool} {ds rest : List Char}
    (hds : ∀ c ∈ ds, p c = true) (hrest : ∀ c, rest.head? = some c → p c = false) :
    (ds ++ rest).takeWhile p = ds := by
  induction ds with
  | nil =>
      simp only [List.nil_append]
      cases rest with
      | nil => rfl
      | cons a t => simp [List.takeWhile_cons, hrest a rfl]
  | cons a t ih =>
      simp only [List.cons_append, List.takeWhile_cons, hds a (List.mem_cons_self a t), if_true,
        List.cons.injEq, true_and]
      exact ih (fun c hc => hds c (List.mem_cons_of_mem _ hc))

lemma dropWhile_append_run {p : Char → Bool} {ds rest : List Char}
    (hds : ∀ c ∈ ds, p c = true) (hrest : ∀ c, rest.head? = some c → p c = false) :
    (ds ++ rest).dropWhile p = rest := by
  induction ds with
  | nil =>
      simp only [List.nil_append]
      exact dropWhile_eq_self_of_head hrest
  | cons a t ih =>
      simp only [List.cons_append, List.dropWhile_cons, hds a (List.mem_cons_self a t), if_true]
      exact ih (fun c hc => hds c (List.mem_cons_of_mem _ hc))

lemma ne_of_digit {c : Char} (h : charIsDigit c = true) {d : Char}
    (hd : charIsDigit d = false) : c ≠ d := by
  intro e
  subst e
  rw [h] at hd
  exact Bool.noConfusion hd

lemma digit_not_ws {c : Char} (h : charIsDigit c = true) : isJsWhitespace c = false := by
  cases hb : isJsWhitespace c
  · rfl
  · exfalso
    simp only [isJsWhitespace, Bool.or_eq_true, beq_iff_eq] at hb
    rcases hb with ((((rfl | rfl) | rfl) | rfl) | rfl) | rfl <;> exact absurd h (by decide)

lemma splitSign_no_sign (c : Char) (cs : List Char) (h1 : c ≠ '-') (h2 : c ≠ '+') :
    splitSign (c :: cs) = (1, c :: cs) := by
  simp [splitSign, h1, h2]

lemma splitSign_snd_mem {cs : List Char} {c : Char} (h : c ∈ (splitSign cs).2) : c ∈ cs := by
  cases cs with
  | nil => exact h
  | cons a r =>
      simp only [splitSign] at h
      split_ifs at h
      · exact List.mem_cons_of_mem _ h
      · exact List.mem_cons_of_mem _ h
      · exact h

/-- Number.parseInt returns the value of the maximal leading digit run. -/
lemma jsParseInt_digit_run {s : String} {ds rest : List Char}
    (hsplit : s.data = ds ++ rest) (hne : ds ≠ [])
    (hds : ∀ c ∈ ds, charIsDigit c = true)
    (hrest : ∀ c, rest.head? = some c → charIsDigit c = false) :
    jsParseInt s = some ((digitsToNat ds : Nat) : Int) := by
  obtain ⟨d, ds', rfl⟩ : ∃ d ds', ds = d :: ds' := by
    cases ds with
    | nil => exact absurd rfl hne
    | cons d ds' => exact ⟨d, ds', rfl⟩
  have hd : charIsDigit d = true := hds d (List.mem_cons_self d ds')
  have hmain : s.data = d :: (ds' ++ rest) := by rw [hsplit, List.cons_append]
  have hws : (d :: (ds' ++ rest)).dropWhile isJsWhitespace = d :: (ds' ++ rest) :=
    dropWhile_eq_self_of_head (fun c hc => by
      obtain rfl : d = c := by simpa using hc
      exact digit_not_ws hd)
  have hsign : splitSign (d :: (ds' ++ rest)) = (1, d :: (ds' ++ rest)) :=
    splitSign_no_sign _ _ (ne_of_digit hd (by decide)) (ne_of_digit hd (by decide))
  have htake : (d :: (ds' ++ rest)).takeWhile charIsDigit = d :: ds' := by
    have h := takeWhile_append_run hds hrest
    rw [List.cons_append] at h
    exact h
  simp only [jsParseInt, hmain, hws, hsign, htake]
  rw [if_neg (by simp : ¬ (d :: ds' = []))]
  simp [one_mul]

/-- Number.parseInt yields the NaN sentinel on a string with no digits. -/
lemma jsParseInt_no_digit {s : String}
    (h : ∀ c ∈ s.data, charIsDigit c = false) : jsParseInt s = none := by
  have h1 : ∀ c ∈ s.data.dropWhile isJsWhitespace, charIsDigit c = false :=
    fun c hc => h c (mem_of_mem_dropWhile hc)
  have h2 : ∀ c ∈ (splitSign (s.data.dropWhile isJsWhitespace)).2, charIsDigit c = false :=
    fun c hc => h1 c (splitSign_snd_mem hc)
  simp [jsParseInt, takeWhile_eq_nil_of_none h2]

lemma head?_mem {l : List Char} {c : Char} (h : l.head? = some c) : c ∈ l := by
  cases l with
  | nil => exact Option.noConfusion h
  | cons a t =>
      obtain rfl : a = c := by simpa using h
      exact List.mem_cons_self _ _

lemma digitsToNat_nil : digitsToNat [] = 0 := rfl

lemma splitSignF_no_sign (c : Char) (cs : List Char) (h1 : c ≠ '-') (h2 : c ≠ '+') :
    splitSignF (c :: cs) = (false, c :: cs) := by
  simp [splitSignF, h1, h2]

lemma splitSignF_snd_mem {cs : List Char} {c : Char} (h : c ∈ (splitSignF cs).2) : c ∈ cs := by
  cases cs with
  | nil => exact h
  | cons a r =>
      simp only [splitSignF] at h
      split_ifs at h
      · exact List.mem_cons_of_mem _ h
      · exact List.mem_cons_of_mem _ h
      · exact h

lemma infinity_not_prefix {cs : List Char} (h : ∀ c, cs.head? = some c → c ≠ 'I') :
    "Infinity".data.isPrefixOf cs = false := by
  cases cs with
  | nil => rfl
  | cons a t =>
      have ha : ('I' == a) = false := beq_eq_false_iff_ne.mpr (Ne.symm (h a rfl))
      rw [show "Infinity".data = 'I' :: "nfinity".data from rfl]
      simp [List.isPrefixOf, ha]

lemma splitFrac_no_dot {rest : List Char}
    (h : ∀ c, rest.head? = some c → c ≠ '.') : splitFrac rest = ([], rest) := by
  cases rest with
  | nil => rfl
  | cons a t => simp [splitFrac, h a rfl]

lemma parseExp_zero {rest : List Char}
    (h : ∀ c, rest.head? = some c → c ≠ 'e' ∧ c ≠ 'E') : parseExp rest = 0 := by
  cases rest with
  | nil => rfl
  | cons a t =>
      have ha := h a rfl
      simp [parseExp, ha.1, ha.2]

/-- Number.parseFloat core on a maximal leading digit run followed by no
dot, digit or exponent marker yields the exact value of the run. -/
lemma jsParseFloatCore_digit_run {ds rest : List Char} (hne : ds ≠ [])
    (hds : ∀ c ∈ ds, charIsDigit c = true)
    (hrest : ∀ c, rest.head? = some c →
      charIsDigit c = false ∧ c ≠ '.' ∧ c ≠ 'e' ∧ c ≠ 'E') :
    jsParseFloatCore (ds ++ rest) false = JsNum.val ((digitsToNat ds : Nat) : ℚ) := by
  obtain ⟨d, ds', rfl⟩ : ∃ d ds', ds = d :: ds' := by
    cases ds with
    | nil => exact absurd rfl hne
    | cons d ds' => exact ⟨d, ds', rfl⟩
  have hd : charIsDigit d = true := hds d (List.mem_cons_self d ds')
  have hpre : "Infinity".data.isPrefixOf ((d :: ds') ++ rest) = false := by
    rw [List.cons_append]
    exact infinity_not_prefix (fun c hc => by
      obtain rfl : d = c := by simpa using hc
      exact ne_of_digit hd (by decide))
  have htake := takeWhile_append_run hds (fun c hc => (hrest c hc).1)
  have hdrop := dropWhile_append_run hds (fun c hc => (hrest c hc).1)
  have hfrac : splitFrac rest = ([], rest) := splitFrac_no_dot (fun c hc => (hrest c hc).2.1)
  have hexp : parseExp rest = 0 :=
    parseExp_zero (fun c hc => ⟨(hrest c hc).2.2.1, (hrest c hc).2.2.2⟩)
  simp only [jsParseFloatCore, hpre, htake, hdrop, hfrac, hexp]
  simp [digitsToNat_nil]

/-- Number.parseFloat on a string that is a maximal leading digit run
followed by no dot, digit or exponent marker. -/
lemma jsParseFloat_digit_run {s : String} {ds rest : List Char}
    (hsplit : s.data = ds ++ rest) (hne : ds ≠ [])
    (hds : ∀ c ∈ ds, charIsDigit c = true)
    (hrest : ∀ c, rest.head? = some c →
      charIsDigit c = false ∧ c ≠ '.' ∧ c ≠ 'e' ∧ c ≠ 'E') :
    jsParseFloat s = JsNum.val ((digitsToNat ds : Nat) : ℚ) := by
  obtain ⟨d, ds', rfl⟩ : ∃ d ds', ds = d :: ds' := by
    cases ds with
    | nil => exact absurd rfl hne
    | cons d ds' => exact ⟨d, ds', rfl⟩
  have hd : charIsDigit d = true := hds d (List.mem_cons_self d ds')
  have hmain : s.data = d :: (ds' ++ rest) := by rw [hsplit, List.cons_append]
  have hws : (d :: (ds' ++ rest)).dropWhile isJsWhitespace = d :: (ds' ++ rest) :=
    dropWhile_eq_self_of_head (fun c hc => by
      obtain rfl : d = c := by simpa using hc
      exact digit_not_ws hd)
  have hsignF : splitSignF (d :: (ds' ++ rest)) = (false, d :: (ds' ++ rest)) :=
    splitSignF_no_sign _ _ (ne_of_digit hd (by decide)) (ne_of_digit hd (by decide))
  have hcore := jsParseFloatCore_digit_run hne hds hrest
  simp only [jsParseFloat, hmain, hws, hsignF]
  rw [← List.cons_append]
  exact hcore

/-- Number.parseFloat core gives NaN when there is no digit and no
Infinity literal. -/
lemma jsParseFloatCore_nan {cs1 : List Char} (neg : Bool)
    (h : ∀ c ∈ cs1, charIsDigit c = false ∧ c ≠ 'I') :
    jsParseFloatCore cs1 neg = JsNum.nan := by
  have hpre : "Infinity".data.isPrefixOf cs1 = false :=
    infinity_not_prefix (fun c hc => (h c (head?_mem hc)).2)
  have htake : cs1.takeWhile charIsDigit = [] :=
    takeWhile_eq_nil_of_none (fun c hc => (h c hc).1)
  have hdrop : cs1.dropWhile charIsDigit = cs1 :=
    dropWhile_eq_self_of_head (fun c hc => (h c (head?_mem hc)).1)
  have hfp : (splitFrac cs1).1 = [] := by
    cases cs1 with
    | nil => rfl
    | cons a t =>
        simp only [splitFrac]
        split_ifs with hdot
        · exact takeWhile_eq_nil_of_none (fun c hc => (h c (List.mem_cons_of_mem _ hc)).1)
        · rfl
  simp [jsParseFloatCore, hpre, hdrop, htake, hfp]

/-- Number.parseFloat gives NaN on a string with no digit and no capital I
(hence no Infinity literal). -/
lemma jsParseFloat_nan {s : String}
    (h : ∀ c ∈ s.data, charIsDigit c = false ∧ c ≠ 'I') : jsParseFloat s = JsNum.nan := by
  simp only [jsParseFloat]
  exact jsParseFloatCore_nan _ (fun c hc => h c (mem_of_mem_dropWhile (splitSignF_snd_mem hc)))



lemma string_data_append (s t : String) : (s ++ t).data = s.data ++ t.data := rfl

/-- C1: for every path whose platform-resolved absolute form exists,
validateInputFile returns exactly that resolved absolute path; for every
path whose resolved form does not exist, it throws an error whose message
names that exact resolved path. -/
theorem validate_input_file_spec (resolve : String → String) (fsExists : String → Bool)
    (inputPath : String) :
    (fsExists (resolve inputPath) = true →
      validateInputFile resolve fsExists inputPath = Except.ok (resolve inputPath)) ∧
    (fsExists (resolve inputPath) = false →
      validateInputFile resolve fsExists inputPath =
        Except.error ("Input file not found: " ++ resolve inputPath) ∧
      ∃ pre suf, ("Input file not found: " ++ resolve inputPath).data =
        pre ++ (resolve inputPath).data ++ suf) := by
  constructor
  · intro h
    simp [validateInputFile, h]
  · intro h
    refine ⟨by simp [validateInputFile, h], "Input file not found: ".data, [], ?_⟩
    rw [string_data_append, List.append_nil]

/-- Witness for validate_input_file_spec at a concrete resolver and
filesystem, covering the existing and the missing case. -/
theorem validate_input_file_spec_witness :
    validateInputFile (fun s => "/abs/" ++ s) (fun _ => true) "demo.cast" =
      Except.ok ("/abs/" ++ "demo.cast") ∧
    validateInputFile (fun s => "/abs/" ++ s) (fun _ => false) "demo.cast" =
      Except.error ("Input file not found: " ++ ("/abs/" ++ "demo.cast")) :=
  ⟨(validate_input_file_spec (fun s => "/abs/" ++ s) (fun _ => true) "demo.cast").1 rfl,
   ((validate_input_file_spec (fun s => "/abs/" ++ s) (fun _ => false) "demo.cast").2 rfl).1⟩

/-- C2: parseOptions maps width and height by base-10 integer parsing and
speed and scale by floating-point parsing, leaves output and theme
unchanged, turns a non-numeric string into the not-a-number sentinel in
that field only (each parsed field depends only on its own input string),
and rejects nothing (it is total and always returns a record). -/
theorem parse_options_spec (o : ConvertOptions) :
    (parseOptions o).output = o.output ∧
    (parseOptions o).theme = o.theme ∧
    (parseOptions o).width = jsParseInt o.width ∧
    (parseOptions o).height = jsParseInt o.height ∧
    (parseOptions o).speed = jsParseFloat o.speed ∧
    (parseOptions o).scale = jsParseFloat o.scale ∧
    ((∀ c ∈ o.width.data, charIsDigit c = false) → (parseOptions o).width = none) ∧
    ((∀ c ∈ o.speed.data, charIsDigit c = false ∧ c ≠ 'I') →
      (parseOptions o).speed = JsNum.nan) ∧
    ((o.width.data ≠ [] ∧ ∀ c ∈ o.width.data, charIsDigit c = true) →
      (parseOptions o).width = some ((digitsToNat o.width.data : Nat) : Int)) ∧
    ((o.speed.data ≠ [] ∧ ∀ c ∈ o.speed.data, charIsDigit c = true) →
      (parseOptions o).speed = JsNum.val ((digitsToNat o.speed.data : Nat) : ℚ)) ∧
    (∀ o' : ConvertOptions, o'.width = o.width →
      (parseOptions o').width = (parseOptions o).width) ∧
    (∀ o' : ConvertOptions, o'.height = o.height →
      (parseOptions o').height = (parseOptions o).height) ∧
    (∀ o' : ConvertOptions, o'.speed = o.speed →
      (parseOptions o').speed = (parseOptions o).speed) ∧
    (∀ o' : ConvertOptions, o'.scale = o.scale →
      (parseOptions o').scale = (parseOptions o).scale) := by
  refine ⟨rfl, rfl, rfl, rfl, rfl, rfl, ?_, ?_, ?_, ?_, ?_, ?_, ?_, ?_⟩
  · intro h
    exact jsParseInt_no_digit h
  · intro h
    exact jsParseFloat_nan h
  · rintro ⟨hne, hds⟩
    exact jsParseInt_digit_run (List.append_nil _).symm hne hds
      (fun c hc => Option.noConfusion hc)
  · rintro ⟨hne, hds⟩
    exact jsParseFloat_digit_run (List.append_nil _).symm hne hds
      (fun c hc => Option.noConfusion hc)
  · intro o' h
    simp [parseOptions, h]
  · intro o' h
    simp [parseOptions, h]
  · intro o' h
    simp [parseOptions, h]
  · intro o' h
    simp [parseOptions, h]

/-- Witness for parse_options_spec: non-numeric width and speed become the
sentinel while the other fields are unaffected, and a numeric width parses
to its integer value. -/
theorem parse_options_spec_witness :
    (parseOptions ⟨"out.mp4", "abc", "600", Theme.asciinema, "fast", "2"⟩).width = none ∧
    (parseOptions ⟨"out.mp4", "abc", "600", Theme.asciinema, "fast", "2"⟩).speed = JsNum.nan ∧
    (parseOptions ⟨"out.mp4", "800", "600", Theme.asciinema, "1", "2"⟩).width = some 800 := by
  refine ⟨?_, ?_, ?_⟩
  · exact (parse_options_spec _).2.2.2.2.2.2.1 (by decide)
  · exact (parse_options_spec _).2.2.2.2.2.2.2.1 (by decide)
  · exact (parse_options_spec _).2.2.2.2.2.2.2.2.1 ⟨by decide, by decide⟩

/-- Reduction of Number.parseFloat to its core when the string starts with
a character that is no whitespace and no sign. -/
lemma jsParseFloat_eq_core {s : String} {cs : List Char} (hsplit : s.data = cs)
    (hhead : ∀ c, cs.head? = some c → isJsWhitespace c = false ∧ c ≠ '-' ∧ c ≠ '+') :
    jsParseFloat s = jsParseFloatCore cs false := by
  have hws : cs.dropWhile isJsWhitespace = cs :=
    dropWhile_eq_self_of_head (fun c hc => (hhead c hc).1)
  have hsg : splitSignF cs = (false, cs) := by
    cases cs with
    | nil => rfl
    | cons a t => exact splitSignF_no_sign a t (hhead a rfl).2.1 (hhead a rfl).2.2
  simp only [jsParseFloat, hsplit, hws, hsg]

lemma head_of_append_run {ds tail : List Char} (hne : ds ≠ [])
    (hds : ∀ c ∈ ds, charIsDigit c = true) :
    ∀ c, (ds ++ tail).head? = some c → charIsDigit c = true := by
  intro c hc
  cases ds with
  | nil => exact absurd rfl hne
  | cons d ds' =>
      rw [List.cons_append] at hc
      obtain rfl : d = c := by simpa using hc
      exact hds d (List.mem_cons_self d ds')

/-- Number.parseFloat core on a maximal leading digit run with no fraction:
the value of the run scaled by whatever exponent part follows. -/
lemma jsParseFloatCore_run {ds rest : List Char} (hne : ds ≠ [])
    (hds : ∀ c ∈ ds, charIsDigit c = true)
    (hrest : ∀ c, rest.head? = some c → charIsDigit c = false ∧ c ≠ '.') :
    jsParseFloatCore (ds ++ rest) false =
      JsNum.val (((digitsToNat ds : Nat) : ℚ) * (10 : ℚ) ^ parseExp rest) := by
  obtain ⟨d, ds', rfl⟩ : ∃ d ds', ds = d :: ds' := by
    cases ds with
    | nil => exact absurd rfl hne
    | cons d ds' => exact ⟨d, ds', rfl⟩
  have hd : charIsDigit d = true := hds d (List.mem_cons_self d ds')
  have hpre : "Infinity".data.isPrefixOf ((d :: ds') ++ rest) = false := by
    rw [List.cons_append]
    exact infinity_not_prefix (fun c hc => by
      obtain rfl : d = c := by simpa using hc
      exact ne_of_digit hd (by decide))
  have htake := takeWhile_append_run hds (fun c hc => (hrest c hc).1)
  have hdrop := dropWhile_append_run hds (fun c hc => (hrest c hc).1)
  have hfrac : splitFrac rest = ([], rest) := splitFrac_no_dot (fun c hc => (hrest c hc).2)
  simp only [jsParseFloatCore, hpre, htake, hdrop, hfrac]
  simp [digitsToNat_nil]

/-- Number.parseFloat core on a leading decimal literal with a fraction
part: integer run, dot, maximal fractional run, then whatever exponent
part follows. -/
lemma jsParseFloatCore_frac_run {ds fs rest : List Char} (hne : ds ≠ [] ∨ fs ≠ [])
    (hds : ∀ c ∈ ds, charIsDigit c = true) (hfs : ∀ c ∈ fs, charIsDigit c = true)
    (hrest : ∀ c, rest.head? = some c → charIsDigit c = false) :
    jsParseFloatCore (ds ++ ('.' :: (fs ++ rest))) false =
      JsNum.val ((((digitsToNat ds : Nat) : ℚ) +
        ((digitsToNat fs : Nat) : ℚ) / (10 : ℚ) ^ fs.length) * (10 : ℚ) ^ parseExp rest) := by
  have hdot : ∀ c, ('.' :: (fs ++ rest)).head? = some c → charIsDigit c = false := by
    intro c hc
    obtain rfl : '.' = c := by simpa using hc
    decide
  have hpre : "Infinity".data.isPrefixOf (ds ++ ('.' :: (fs ++ rest))) = false := by
    cases ds with
    | nil =>
        rw [List.nil_append]
        exact infinity_not_prefix (fun c hc => by
          obtain rfl : '.' = c := by simpa using hc
          decide)
    | cons d ds' =>
        rw [List.cons_append]
        exact infinity_not_prefix (fun c hc => by
          obtain rfl : d = c := by simpa using hc
          exact ne_of_digit (hds d (List.mem_cons_self d ds')) (by decide))
  have htake := takeWhile_append_run hds hdot
  have hdrop := dropWhile_append_run hds hdot
  have hfrac : splitFrac ('.' :: (fs ++ rest)) = (fs, rest) := by
    show ((fs ++ rest).takeWhile charIsDigit, (fs ++ rest).dropWhile charIsDigit) = (fs, rest)
    rw [takeWhile_append_run hfs hrest, dropWhile_append_run hfs hrest]
  have hcond : ¬ (ds = [] ∧ fs = []) := by
    rintro ⟨h1, h2⟩
    rcases hne with h | h
    · exact h h1
    · exact h h2
  simp only [jsParseFloatCore, hpre, htake, hdrop, hfrac]
  rw [if_neg hcond]
  simp

/-- Number.parseFloat on a string that starts with a maximal digit run not
followed by a dot: the run value scaled by the following exponent part. -/
lemma jsParseFloat_run {s : String} {ds rest : List Char}
    (hsplit : s.data = ds ++ rest) (hne : ds ≠ [])
    (hds : ∀ c ∈ ds, charIsDigit c = true)
    (hrest : ∀ c, rest.head? = some c → charIsDigit c = false ∧ c ≠ '.') :
    jsParseFloat s = JsNum.val (((digitsToNat ds : Nat) : ℚ) * (10 : ℚ) ^ parseExp rest) := by
  have hhead : ∀ c, (ds ++ rest).head? = some c →
      isJsWhitespace c = false ∧ c ≠ '-' ∧ c ≠ '+' := by
    intro c hc
    have hd := head_of_append_run hne hds c hc
    exact ⟨digit_not_ws hd, ne_of_digit hd (by decide), ne_of_digit hd (by decide)⟩
  rw [jsParseFloat_eq_core hsplit hhead]
  exact jsParseFloatCore_run hne hds hrest

/-- Number.parseFloat on a string that starts with a decimal literal with a
fraction part, followed by an optional exponent part and anything after. -/
lemma jsParseFloat_frac_run {s : String} {ds fs rest : List Char}
    (hsplit : s.data = ds ++ ('.' :: (fs ++ rest))) (hne : ds ≠ [] ∨ fs ≠ [])
    (hds : ∀ c ∈ ds, charIsDigit c = true) (hfs : ∀ c ∈ fs, charIsDigit c = true)
    (hrest : ∀ c, rest.head? = some c → charIsDigit c = false) :
    jsParseFloat s =
      JsNum.val ((((digitsToNat ds : Nat) : ℚ) +
        ((digitsToNat fs : Nat) : ℚ) / (10 : ℚ) ^ fs.length) * (10 : ℚ) ^ parseExp rest) := by
  have hhead : ∀ c, (ds ++ ('.' :: (fs ++ rest))).head? = some c →
      isJsWhitespace c = false ∧ c ≠ '-' ∧ c ≠ '+' := by
    intro c hc
    cases ds with
    | nil =>
        rw [List.nil_append] at hc
        obtain rfl : '.' = c := by simpa using hc
        exact ⟨by decide, by decide, by decide⟩
    | cons d ds' =>
        rw [List.cons_append] at hc
        obtain rfl : d = c := by simpa using hc
        have hd := hds d (List.mem_cons_self d ds')
        exact ⟨digit_not_ws hd, ne_of_digit hd (by decide), ne_of_digit hd (by decide)⟩
  rw [jsParseFloat_eq_core hsplit hhead]
  exact jsParseFloatCore_frac_run hne hds hfs hrest

/-- C9: every width or height string with a leading digit run followed by
non-numeric characters parses to the integer value of the leading run; the
sentinel arises exactly when the string has no parseable leading integer
(no digit follows the skipped whitespace and optional sign); and speed and
scale likewise accept any string with a parseable leading floating-point
prefix: a digit run, an optional dot with a maximal fractional run, and an
optional exponent part (handled by parseExp, which yields 0 when no valid
exponent follows). -/
theorem parse_options_leading_run (o : ConvertOptions) (ds fs rest : List Char) :
    (o.width.data = ds ++ rest → ds ≠ [] → (∀ c ∈ ds, charIsDigit c = true) →
      (∀ c, rest.head? = some c → charIsDigit c = false) →
      (parseOptions o).width = some ((digitsToNat ds : Nat) : Int)) ∧
    (o.height.data = ds ++ rest → ds ≠ [] → (∀ c ∈ ds, charIsDigit c = true) →
      (∀ c, rest.head? = some c → charIsDigit c = false) →
      (parseOptions o).height = some ((digitsToNat ds : Nat) : Int)) ∧
    ((parseOptions o).width = none ↔
      (splitSign (o.width.data.dropWhile isJsWhitespace)).2.takeWhile charIsDigit = []) ∧
    ((parseOptions o).height = none ↔
      (splitSign (o.height.data.dropWhile isJsWhitespace)).2.takeWhile charIsDigit = []) ∧
    (o.speed.data = ds ++ rest → ds ≠ [] → (∀ c ∈ ds, charIsDigit c = true) →
      (∀ c, rest.head? = some c → charIsDigit c = false ∧ c ≠ '.') →
      (parseOptions o).speed =
        JsNum.val (((digitsToNat ds : Nat) : ℚ) * (10 : ℚ) ^ parseExp rest)) ∧
    (o.speed.data = ds ++ ('.' :: (fs ++ rest)) → (ds ≠ [] ∨ fs ≠ []) →
      (∀ c ∈ ds, charIsDigit c = true) → (∀ c ∈ fs, charIsDigit c = true) →
      (∀ c, rest.head? = some c → charIsDigit c = false) →
      (parseOptions o).speed =
        JsNum.val ((((digitsToNat ds : Nat) : ℚ) +
          ((digitsToNat fs : Nat) : ℚ) / (10 : ℚ) ^ fs.length) *
          (10 : ℚ) ^ parseExp rest)) ∧
    (o.scale.data = ds ++ rest → ds ≠ [] → (∀ c ∈ ds, charIsDigit c = true) →
      (∀ c, rest.head? = some c → charIsDigit c = false ∧ c ≠ '.') →
      (parseOptions o).scale =
        JsNum.val (((digitsToNat ds : Nat) : ℚ) * (10 : ℚ) ^ parseExp rest)) ∧
    (o.scale.data = ds ++ ('.' :: (fs ++ rest)) → (ds ≠ [] ∨ fs ≠ []) →
      (∀ c ∈ ds, charIsDigit c = true) → (∀ c ∈ fs, charIsDigit c = true) →
      (∀ c, rest.head? = some c → charIsDigit c = false) →
      (parseOptions o).scale =
        JsNum.val ((((digitsToNat ds : Nat) : ℚ) +
          ((digitsToNat fs : Nat) : ℚ) / (10 : ℚ) ^ fs.length) *
          (10 : ℚ) ^ parseExp rest)) := by
  refine ⟨?_, ?_, ?_, ?_, ?_, ?_, ?_, ?_⟩
  · intro hsplit hne hds hrest
    exact jsParseInt_digit_run hsplit hne hds hrest
  · intro hsplit hne hds hrest
    exact jsParseInt_digit_run hsplit hne hds hrest
  · show jsParseInt o.width = none ↔ _
    simp only [jsParseInt]
    constructor
    · intro h
      by_contra hne
      rw [if_neg hne] at h
      exact Option.noConfusion h
    · intro h
      rw [if_pos h]
  · show jsParseInt o.height = none ↔ _
    simp only [jsParseInt]
    constructor
    · intro h
      by_contra hne
      rw [if_neg hne] at h
      exact Option.noConfusion h
    · intro h
      rw [if_pos h]
  · intro hsplit hne hds hrest
    exact jsParseFloat_run hsplit hne hds hrest
  · intro hsplit hne hds hfs hrest
    exact jsParseFloat_frac_run hsplit hne hds hfs hrest
  · intro hsplit hne hds hrest
    exact jsParseFloat_run hsplit hne hds hrest
  · intro hsplit hne hds hfs hrest
    exact jsParseFloat_frac_run hsplit hne hds hfs hrest

/-- Witness for parse_options_leading_run: width 800px parses to 800,
height 600pt to 600, speed 1.5x to the decimal value one and five tenths,
and scale .5 to five tenths. -/
theorem parse_options_leading_run_witness :
    (parseOptions ⟨"o", "800px", "600pt", Theme.asciinema, "1.5x", ".5"⟩).width =
      some 800 ∧
    (parseOptions ⟨"o", "800px", "600pt", Theme.asciinema, "1.5x", ".5"⟩).height =
      some 600 ∧
    (parseOptions ⟨"o", "800px", "600pt", Theme.asciinema, "1.5x", ".5"⟩).speed =
      JsNum.val ((((1 : Nat) : ℚ) + ((5 : Nat) : ℚ) / (10 : ℚ) ^ (1 : Nat)) *
        (10 : ℚ) ^ (0 : Int)) ∧
    (parseOptions ⟨"o", "800px", "600pt", Theme.asciinema, "1.5x", ".5"⟩).scale =
      JsNum.val ((((0 : Nat) : ℚ) + ((5 : Nat) : ℚ) / (10 : ℚ) ^ (1 : Nat)) *
        (10 : ℚ) ^ (0 : Int)) := by
  refine ⟨?_, ?_, ?_, ?_⟩
  · exact (parse_options_leading_run ⟨"o", "800px", "600pt", Theme.asciinema, "1.5x", ".5"⟩
      ['8', '0', '0'] [] ['p', 'x']).1 rfl (by decide) (by decide)
      (fun c hc => by
        obtain rfl : 'p' = c := by simpa using hc
        decide)
  · exact (parse_options_leading_run ⟨"o", "800px", "600pt", Theme.asciinema, "1.5x", ".5"⟩
      ['6', '0', '0'] [] ['p', 't']).2.1 rfl (by decide) (by decide)
      (fun c hc => by
        obtain rfl : 'p' = c := by simpa using hc
        decide)
  · exact (parse_options_leading_run ⟨"o", "800px", "600pt", Theme.asciinema, "1.5x", ".5"⟩
      ['1'] ['5'] ['x']).2.2.2.2.2.1 rfl (Or.inl (by decide)) (by decide) (by decide)
      (fun c hc => by
        obtain rfl : 'x' = c := by simpa using hc
        decide)
  · exact (parse_options_leading_run ⟨"o", "800px", "600pt", Theme.asciinema, "1.5x", ".5"⟩
      [] ['5'] []).2.2.2.2.2.2.2 rfl (Or.inr (by decide)) (by decide) (by decide)
      (fun c hc => Option.noConfusion hc)

lemma sextetVal_sextetChar : ∀ n, n < 64 → sextetVal (sextetChar n) = some n := by decide

lemma sextetChar_ne_pad : ∀ n, n < 64 → sextetChar n ≠ '=' := by decide

lemma base64DecodeChars_cons4 (c1 c2 c3 c4 : Char) (rest : List Char) :
    base64DecodeChars (c1 :: c2 :: c3 :: c4 :: rest) =
      if rest = [] ∧ (c4 = '=' ∨ c3 = '=') then base64DecodeTail c1 c2 c3 c4
      else
        match decodeQuad c1 c2 c3 c4, base64DecodeChars rest with
        | some g, some t => some (g ++ t)
        | _, _ => none := rfl

lemma decodeDuo_sextet {v1 v2 : Nat} (h1 : v1 < 64) (h2 : v2 < 64) :
    decodeDuo (sextetChar v1) (sextetChar v2) = some [v1 * 4 + v2 / 16] := by
  unfold decodeDuo
  rw [sextetVal_sextetChar v1 h1, sextetVal_sextetChar v2 h2]

lemma decodeTrio_sextet {v1 v2 v3 : Nat} (h1 : v1 < 64) (h2 : v2 < 64) (h3 : v3 < 64) :
    decodeTrio (sextetChar v1) (sextetChar v2) (sextetChar v3) =
      some [v1 * 4 + v2 / 16, v2 % 16 * 16 + v3 / 4] := by
  unfold decodeTrio
  rw [sextetVal_sextetChar v1 h1, sextetVal_sextetChar v2 h2, sextetVal_sextetChar v3 h3]

lemma decodeQuad_sextet {v1 v2 v3 v4 : Nat} (h1 : v1 < 64) (h2 : v2 < 64) (h3 : v3 < 64)
    (h4 : v4 < 64) :
    decodeQuad (sextetChar v1) (sextetChar v2) (sextetChar v3) (sextetChar v4) =
      some [v1 * 4 + v2 / 16, v2 % 16 * 16 + v3 / 4, v3 % 4 * 64 + v4] := by
  unfold decodeQuad
  rw [sextetVal_sextetChar v1 h1, sextetVal_sextetChar v2 h2, sextetVal_sextetChar v3 h3,
    sextetVal_sextetChar v4 h4]

/-- Decoding is a left inverse of encoding on byte lists. -/
lemma base64_decode_encode : ∀ (bs : List Nat), (∀ b ∈ bs, b < 256) →
    base64DecodeChars (base64EncodeBytes bs) = some bs
  | [], _ => rfl
  | [b1], h => by
      have hb1 : b1 < 256 := h b1 (by simp)
      show base64DecodeChars
        [sextetChar (b1 / 4), sextetChar (b1 % 4 * 16), '=', '='] = some [b1]
      rw [base64DecodeChars_cons4, if_pos ⟨rfl, Or.inl rfl⟩]
      show decodeDuo (sextetChar (b1 / 4)) (sextetChar (b1 % 4 * 16)) = some [b1]
      rw [decodeDuo_sextet (by omega) (by omega)]
      have e1 : b1 / 4 * 4 + b1 % 4 * 16 / 16 = b1 := by omega
      rw [e1]
  | [b1, b2], h => by
      have hb1 : b1 < 256 := h b1 (by simp)
      have hb2 : b2 < 256 := h b2 (by simp)
      show base64DecodeChars [sextetChar (b1 / 4), sextetChar (b1 % 4 * 16 + b2 / 16),
        sextetChar (b2 % 16 * 4), '='] = some [b1, b2]
      rw [base64DecodeChars_cons4, if_pos ⟨rfl, Or.inl rfl⟩]
      simp only [base64DecodeTail]
      rw [if_neg (sextetChar_ne_pad (b2 % 16 * 4) (by omega)), if_pos trivial]
      rw [decodeTrio_sextet (by omega) (by omega) (by omega)]
      have e1 : b1 / 4 * 4 + (b1 % 4 * 16 + b2 / 16) / 16 = b1 := by omega
      have e2 : (b1 % 4 * 16 + b2 / 16) % 16 * 16 + b2 % 16 * 4 / 4 = b2 := by omega
      rw [e1, e2]
  | b1 :: b2 :: b3 :: rest, h => by
      have hb1 : b1 < 256 := h b1 (by simp)
      have hb2 : b2 < 256 := h b2 (by simp)
      have hb3 : b3 < 256 := h b3 (by simp)
      have ih := base64_decode_encode rest (fun b hb => h b (by simp [hb]))
      show base64DecodeChars (sextetChar (b1 / 4) :: sextetChar (b1 % 4 * 16 + b2 / 16) ::
        sextetChar (b2 % 16 * 4 + b3 / 64) :: sextetChar (b3 % 64) ::
        base64EncodeBytes rest) = some (b1 :: b2 :: b3 :: rest)
      rw [base64DecodeChars_cons4]
      rw [if_neg (by
        rintro ⟨-, hc | hc⟩
        · exact sextetChar_ne_pad (b3 % 64) (by omega) hc
        · exact sextetChar_ne_pad (b2 % 16 * 4 + b3 / 64) (by omega) hc)]
      rw [decodeQuad_sextet (by omega) (by omega) (by omega) (by omega), ih]
      show some ([b1 / 4 * 4 + (b1 % 4 * 16 + b2 / 16) / 16,
        (b1 % 4 * 16 + b2 / 16) % 16 * 16 + (b2 % 16 * 4 + b3 / 64) / 4,
        (b2 % 16 * 4 + b3 / 64) % 4 * 64 + b3 % 64] ++ rest) = some (b1 :: b2 :: b3 :: rest)
      have e1 : b1 / 4 * 4 + (b1 % 4 * 16 + b2 / 16) / 16 = b1 := by omega
      have e2 : (b1 % 4 * 16 + b2 / 16) % 16 * 16 + (b2 % 16 * 4 + b3 / 64) / 4 = b2 := by omega
      have e3 : (b2 % 16 * 4 + b3 / 64) % 4 * 64 + b3 % 64 = b3 := by omega
      rw [e1, e2, e3]
      rfl

/-- C3: createCastDataUri produces a base64 data URI: the fixed prefix
followed by the base64 encoding, and stripping the prefix and
base64-decoding the remainder yields exactly the original bytes of the
input. -/
theorem cast_data_uri_roundtrip (castBytes : List Nat) (h : ∀ b ∈ castBytes, b < 256) :
    (createCastDataUri castBytes).data =
      castDataUriPrefix.data ++ base64EncodeBytes castBytes ∧
    base64DecodeChars ((createCastDataUri castBytes).data.drop castDataUriPrefix.length) =
      some castBytes := by
  have hdata : (createCastDataUri castBytes).data =
      castDataUriPrefix.data ++ base64EncodeBytes castBytes := by
    rw [createCastDataUri, string_data_append]
  refine ⟨hdata, ?_⟩
  rw [hdata, show castDataUriPrefix.length = castDataUriPrefix.data.length from rfl,
    List.drop_left]
  exact base64_decode_encode castBytes h

/-- Witness for cast_data_uri_roundtrip on concrete cast bytes. -/
theorem cast_data_uri_roundtrip_witness :
    base64DecodeChars ((createCastDataUri [104, 105, 33, 10]).data.drop
      castDataUriPrefix.length) = some [104, 105, 33, 10] :=
  (cast_data_uri_roundtrip [104, 105, 33, 10] (by decide)).2

lemma isPrefixOf_append_self (l t : List Char) : l.isPrefixOf (l ++ t) = true := by
  induction l with
  | nil =>
      cases t with
      | nil => rfl
      | cons b bs => rfl
  | cons a l ih => simp [List.isPrefixOf, ih]

lemma countOccur_ge_one_of_prefix {pat hay : List Char} (h : pat.isPrefixOf hay = true) :
    1 ≤ countOccur pat hay := by
  cases hay with
  | nil => simp [countOccur, h]
  | cons a t => simp [countOccur, h]

lemma countOccur_pos (pat pre suf : List Char) :
    1 ≤ countOccur pat (pre ++ (pat ++ suf)) := by
  induction pre with
  | nil =>
      simp only [List.nil_append]
      exact countOccur_ge_one_of_prefix (isPrefixOf_append_self pat suf)
  | cons a pre ih =>
      simp only [List.cons_append, countOccur]
      exact le_trans ih (Nat.le_add_left _ _)

lemma countOccur_pos_of_eq {pat hay : List Char} (pre suf : List Char)
    (h : hay = pre ++ (pat ++ suf)) : 1 ≤ countOccur pat hay := by
  rw [h]
  exact countOccur_pos pat pre suf

/-- C4 (amended): the HTML string returned by generateHtml contains, as
verbatim substrings, the supplied style content, the supplied script
content, the supplied data URI, the chosen theme literal and the chosen
speed literal, each at least once (at its interpolation site). -/
theorem generate_html_contains (a : PlayerAssets) (castDataUri : String)
    (o : ParsedOptions) :
    1 ≤ countOccur a.cssContent.data (generateHtml a castDataUri o).data ∧
    1 ≤ countOccur a.jsContent.data (generateHtml a castDataUri o).data ∧
    1 ≤ countOccur castDataUri.data (generateHtml a castDataUri o).data ∧
    1 ≤ countOccur (themeToString o.theme).data (generateHtml a castDataUri o).data ∧
    1 ≤ countOccur (jsNumToString o.speed).data (generateHtml a castDataUri o).data := by
  refine ⟨?_, ?_, ?_, ?_, ?_⟩
  · exact countOccur_pos_of_eq htmlSeg1.data
      ((htmlSeg2 ++ a.jsContent ++ htmlSeg3 ++ castDataUri ++ htmlSeg4 ++
        themeToString o.theme ++ htmlSeg5 ++ jsNumToString o.speed ++ htmlSeg6).data)
      (by simp [generateHtml, string_data_append, List.append_assoc])
  · exact countOccur_pos_of_eq ((htmlSeg1 ++ a.cssContent ++ htmlSeg2).data)
      ((htmlSeg3 ++ castDataUri ++ htmlSeg4 ++ themeToString o.theme ++ htmlSeg5 ++
        jsNumToString o.speed ++ htmlSeg6).data)
      (by simp [generateHtml, string_data_append, List.append_assoc])
  · exact countOccur_pos_of_eq
      ((htmlSeg1 ++ a.cssContent ++ htmlSeg2 ++ a.jsContent ++ htmlSeg3).data)
      ((htmlSeg4 ++ themeToString o.theme ++ htmlSeg5 ++ jsNumToString o.speed ++
        htmlSeg6).data)
      (by simp [generateHtml, string_data_append, List.append_assoc])
  · exact countOccur_pos_of_eq
      ((htmlSeg1 ++ a.cssContent ++ htmlSeg2 ++ a.jsContent ++ htmlSeg3 ++ castDataUri ++
        htmlSeg4).data)
      ((htmlSeg5 ++ jsNumToString o.speed ++ htmlSeg6).data)
      (by simp [generateHtml, string_data_append, List.append_assoc])
  · exact countOccur_pos_of_eq
      ((htmlSeg1 ++ a.cssContent ++ htmlSeg2 ++ a.jsContent ++ htmlSeg3 ++ castDataUri ++
        htmlSeg4 ++ themeToString o.theme ++ htmlSeg5).data)
      (htmlSeg6.data)
      (by simp [generateHtml, string_data_append, List.append_assoc])

set_option maxRecDepth 20000 in
/-- C4 counterexample: with style content that also occurs in the fixed
template (the body margin rule), the supplied style content occurs twice
in the generated page, refuting exactly-once occurrence. -/
theorem generate_html_not_exactly_once :
    ¬ (countOccur "margin: 0;".data
        (generateHtml ⟨"JSC", "margin: 0;"⟩ "DATAURI"
          ⟨"o", some 800, some 600, Theme.asciinema, JsNum.nan, JsNum.nan⟩).data = 1) := by
  decide

/-- C8: the bootstrap script embedded by generateHtml sets the page-global
ended flag exactly endedDelayMs = 1000 milliseconds after the player ended
event, hence strictly later and never immediately; the delay literal is
part of every generated page. -/
theorem ended_flag_one_second_delay (t : Nat) (a : PlayerAssets) (castDataUri : String)
    (o : ParsedOptions) :
    bootstrapEndedFlagTime t = t + 1000 ∧
    t < bootstrapEndedFlagTime t ∧
    endedDelayMs = 1000 ∧
    1 ≤ countOccur (Nat.repr endedDelayMs).data (generateHtml a castDataUri o).data := by
  refine ⟨rfl, ?_, rfl, ?_⟩
  · unfold bootstrapEndedFlagTime endedDelayMs
    omega
  · exact countOccur_pos_of_eq
      ((htmlSeg1 ++ a.cssContent ++ htmlSeg2 ++ a.jsContent ++ htmlSeg3 ++ castDataUri ++
        htmlSeg4 ++ themeToString o.theme ++ htmlSeg5 ++ jsNumToString o.speed ++
        htmlSeg6a).data)
      (htmlSeg6b.data)
      (by simp [generateHtml, htmlSeg6, string_data_append, List.append_assoc])

lemma isSuffixOf_append_self (l t : List Char) : l.isSuffixOf (t ++ l) = true := by
  simp [List.isSuffixOf, List.reverse_append, isPrefixOf_append_self]

/-- C6: recordVideo resolves the encoder, configures the capture session at
exactly 60 frames per second with frame dimensions equal to the parsed
width and height, starts capture, triggers playback, then waits for the
ended flag with timeout 0 (the unbounded wait), and only then stops
capture. -/
theorem record_video_spec (outputPath : String) (o : ParsedOptions) :
    recordVideo outputPath o =
      [RecordEv.resolveFfmpeg,
       RecordEv.configure ⟨false, 60, o.width, o.height⟩,
       RecordEv.startCapture outputPath,
       RecordEv.evalPlay,
       RecordEv.waitForEnded unboundedTimeoutMs,
       RecordEv.stopCapture] ∧
    unboundedTimeoutMs = 0 :=
  ⟨rfl, rfl⟩

/-- C7: on every exit path of convertCastToVideo after the browser is
launched (success, player-initialization failure, recording failure, or
user interrupt) the browser is closed exactly once. -/
theorem browser_closed_exactly_once (setupOk recordOk interrupted : Bool) :
    (convertCastToVideoEvents setupOk recordOk interrupted).count ConvEv.closeBrowser = 1 := by
  cases setupOk <;> cases recordOk <;> cases interrupted <;> decide

/-- C5 (amended): setupPlayer performs the pipeline's only bounded wait
(readiness timeout 15000 ms; the recording wait has timeout 0, disabled);
when the wait fails it reads the page error flag and throws a failure whose
message ends with a colon, a space and the error text when the flag was set
to a non-empty string, and the generic initialization-failure message with
no trailing detail otherwise. -/
theorem setup_player_failure_spec (html : String) (pageError : Option String) :
    setupPlayerTimeoutMs = 15000 ∧
    (∀ waitOk,
      SetupEv.waitForReady setupPlayerTimeoutMs ∈ (setupPlayer html waitOk pageError).1) ∧
    (∀ waitOk t, SetupEv.waitForReady t ∈ (setupPlayer html waitOk pageError).1 →
      t = 15000) ∧
    (∀ outputPath o t, RecordEv.waitForEnded t ∈ recordVideo outputPath o → t = 0) ∧
    (∀ waitOk, waitOk = true → (setupPlayer html waitOk pageError).2 = Except.ok ()) ∧
    (∀ s, pageError = some s → s ≠ "" →
      (setupPlayer html false pageError).2 =
        Except.error ("Player failed to initialize" ++ (": " ++ s)) ∧
      (": " ++ s).data.isSuffixOf
        ("Player failed to initialize" ++ (": " ++ s)).data = true) ∧
    ((pageError = none ∨ pageError = some "") →
      (setupPlayer html false pageError).2 =
        Except.error "Player failed to initialize") := by
  refine ⟨rfl, ?_, ?_, ?_, ?_, ?_, ?_⟩
  · intro waitOk
    cases waitOk <;> simp [setupPlayer]
  · intro waitOk t ht
    cases waitOk <;> simp [setupPlayer, setupPlayerTimeoutMs] at ht <;> exact ht
  · intro outputPath o t ht
    simp [recordVideo, unboundedTimeoutMs] at ht
    exact ht
  · intro waitOk h
    subst h
    simp [setupPlayer]
  · intro s hs hne
    subst hs
    have hbe : (s == "") = false := beq_eq_false_iff_ne.mpr hne
    constructor
    · simp [setupPlayer, playerErrorSuffix, jsTruthy, hbe]
    · rw [string_data_append]
      exact isSuffixOf_append_self _ _
  · rintro (rfl | rfl)
    · rfl
    · rfl

/-- Witness for setup_player_failure_spec: a failed wait with the recorded
in-page error boom throws a message ending with colon, space, boom. -/
theorem setup_player_failure_spec_witness :
    (setupPlayer "h" false (some "boom")).2 =
      Except.error ("Player failed to initialize" ++ (": " ++ "boom")) ∧
    (": " ++ "boom").data.isSuffixOf
      ("Player failed to initialize" ++ (": " ++ "boom")).data = true :=
  (setup_player_failure_spec "h" (some "boom")).2.2.2.2.2.1 "boom" rfl (by decide)

/-- C5 counterexample: when the error flag is set but holds the empty
string, the thrown message is the bare generic text and does not end with
the claimed colon-space error-detail suffix. -/
theorem setup_player_set_flag_no_suffix :
    (setupPlayer "h" false (some "")).2 = Except.error "Player failed to initialize" ∧
    (": " ++ "").data.isSuffixOf ("Player failed to initialize").data = false := by
  constructor
  · rfl
  · decide

/-- C10: when the readiness wait fails and the page error flag is unset or
holds the empty string, the thrown message is the generic text with no
suffix; the error detail is appended only for a non-empty recorded error
text. -/
theorem setup_player_empty_error_generic (html : String) (pageError : Option String) :
    ((pageError = none ∨ pageError = some "") →
      (setupPlayer html false pageError).2 =
        Except.error "Player failed to initialize") ∧
    (∀ s, pageError = some s → s ≠ "" →
      (setupPlayer html false pageError).2 =
        Except.error ("Player failed to initialize" ++ (": " ++ s))) := by
  constructor
  · rintro (rfl | rfl)
    · rfl
    · rfl
  · intro s hs hne
    subst hs
    have hbe : (s == "") = false := beq_eq_false_iff_ne.mpr hne
    simp [setupPlayer, playerErrorSuffix, jsTruthy, hbe]

/-- Witness for setup_player_empty_error_generic at the empty-string flag
and at a non-empty flag. -/
theorem setup_player_empty_error_generic_witness :
    (setupPlayer "h" false (some "")).2 = Except.error "Player failed to initialize" ∧
    (setupPlayer "h" false (some "e")).2 =
      Except.error ("Player failed to initialize" ++ (": " ++ "e")) :=
  ⟨(setup_player_empty_error_generic "h" (some "")).1 (Or.inr rfl),
   (setup_player_empty_error_generic "h" (some "e")).2 "e" rfl (by decide)⟩
